import Mathlib

/-!
Verification of the ticket-rush seat-reservation core.

Shallow embedding of:
- the `Seat` domain entity (src/core/domain/seat.entity.ts),
- the booking errors (src/core/errors/repository.errors.ts, BookingService.ts),
- `PrismaSeatRepository` (optimistic-concurrency store),
- `CachedSeatRepository` (cache-aside decorator),
- `BookingService` (lockSeat / releaseSeat / confirmSale),
- `RabbitMQEventPublisher.publish` (fire-and-forget contract),
- the worker's consume handler (src/worker.ts, ack / nack-with-requeue).

Stateful TypeScript code is modelled by explicit state passing over a
`Store` value (durable rows + cache entries); thrown exceptions become
`Except` results; the JS `number` version counter is modelled as `Int`
(exact, as in the INTEGER column) and the decimal price as `Rat`.
-/

namespace TicketRush

deriving instance DecidableEq for Except

/-- `SeatStatus` enum from seat.entity.ts. -/
inductive SeatStatus
  | AVAILABLE
  | LOCKED
  | SOLD
deriving DecidableEq

/-- The enum values are the strings "AVAILABLE" / "LOCKED" / "SOLD". -/
def statusToString : SeatStatus → String
  | .AVAILABLE => "AVAILABLE"
  | .LOCKED => "LOCKED"
  | .SOLD => "SOLD"

/-- `SeatProps` from seat.entity.ts (also the shape of a `seats` row). -/
structure SeatProps where
  id : String
  status : SeatStatus
  userId : Option String
  version : Int
  price : Rat
  seatNumber : String
  eventId : String
deriving DecidableEq

/-- The immutable `Seat` domain entity: a value wrapping its props. -/
structure Seat where
  props : SeatProps
deriving DecidableEq

namespace Seat

/-- `Seat.create`: a fresh AVAILABLE seat with no holder, version 1. -/
def create (id eventId seatNumber : String) (price : Rat) : Seat :=
  ⟨{ id := id, status := .AVAILABLE, userId := none, version := 1,
     price := price, seatNumber := seatNumber, eventId := eventId }⟩

/-- `Seat.fromPersistence`: reconstitute an entity from stored props. -/
def fromPersistence (props : SeatProps) : Seat :=
  ⟨props⟩

/-- `toJSON()`: a copy of the props (the TS object spread). -/
def toJSON (s : Seat) : SeatProps :=
  { id := s.props.id, status := s.props.status, userId := s.props.userId,
    version := s.props.version, price := s.props.price,
    seatNumber := s.props.seatNumber, eventId := s.props.eventId }

def id (s : Seat) : String := s.props.id

def status (s : Seat) : SeatStatus := s.props.status

def userId (s : Seat) : Option String := s.props.userId

def version (s : Seat) : Int := s.props.version

def price (s : Seat) : Rat := s.props.price

def seatNumber (s : Seat) : String := s.props.seatNumber

def eventId (s : Seat) : String := s.props.eventId

/-- `lock(userId)`: AVAILABLE → LOCKED, holder set, version + 1;
throws unless the current status is AVAILABLE. -/
def lock (s : Seat) (userId : String) : Except String Seat :=
  if s.props.status ≠ SeatStatus.AVAILABLE then
    .error ("Cannot lock seat: current status is " ++ statusToString s.props.status)
  else
    .ok ⟨{ s.props with
            status := .LOCKED
            userId := some userId
            version := s.props.version + 1 }⟩

/-- `sell()`: LOCKED → SOLD, version + 1, holder retained;
throws unless the current status is LOCKED. -/
def sell (s : Seat) : Except String Seat :=
  if s.props.status ≠ SeatStatus.LOCKED then
    .error ("Cannot sell seat: current status is " ++ statusToString s.props.status)
  else
    .ok ⟨{ s.props with
            status := .SOLD
            version := s.props.version + 1 }⟩

/-- `release()`: LOCKED → AVAILABLE, holder cleared, version + 1;
throws unless the current status is LOCKED. -/
def release (s : Seat) : Except String Seat :=
  if s.props.status ≠ SeatStatus.LOCKED then
    .error ("Cannot release seat: current status is " ++ statusToString s.props.status)
  else
    .ok ⟨{ s.props with
            status := .AVAILABLE
            userId := none
            version := s.props.version + 1 }⟩

def isAvailable (s : Seat) : Bool :=
  decide (s.props.status = SeatStatus.AVAILABLE)

def isLocked (s : Seat) : Bool :=
  decide (s.props.status = SeatStatus.LOCKED)

def isSold (s : Seat) : Bool :=
  decide (s.props.status = SeatStatus.SOLD)

/-- `isLockedBy(userId)`: status is LOCKED and the holder is `userId`. -/
def isLockedBy (s : Seat) (userId : String) : Bool :=
  decide (s.props.status = SeatStatus.LOCKED ∧ s.props.userId = some userId)

end Seat

/-- The discriminable error kinds thrown by the repository layer
(ConcurrencyError, Prisma unique-violation) and by BookingService
(SeatNotFoundError, SeatNotAvailableError, UnauthorizedLockError);
`invalidTransition` stands for the bare `Error` thrown by the entity. -/
inductive BookingError
  | seatNotFound (seatId : String)
  | seatNotAvailable (seatId : String) (currentStatus : String)
  | unauthorizedLock (userId : String) (seatId : String)
  | concurrency (entityType : String) (entityId : String) (expectedVersion : Int)
  | duplicateKey (entityId : String)
  | invalidTransition (message : String)
deriving DecidableEq

example : Seat.create "s1" "e1" "A-1" 10 =
    ⟨{ id := "s1", status := .AVAILABLE, userId := none, version := 1,
       price := 10, seatNumber := "A-1", eventId := "e1" }⟩ := rfl

example :
    (Seat.create "s1" "e1" "A-1" 10).lock "u1" =
      .ok ⟨{ id := "s1", status := .LOCKED, userId := some "u1", version := 2,
             price := 10, seatNumber := "A-1", eventId := "e1" }⟩ := by decide

/-! ## Lexicographic text order

`PrismaSeatRepository.findByEventId` issues `orderBy: { seatNumber: 'asc' }`,
a plain text sort in the database. We model the text collation as
codepoint-lexicographic comparison of the character lists. -/

/-- Lexicographic less-or-equal on character lists. -/
def charListLe : List Char → List Char → Bool
  | [], _ => true
  | _ :: _, [] => false
  | a :: as, b :: bs => if a = b then charListLe as bs else decide (a < b)

/-- The text order used by the store's ORDER BY, lifted to seat rows. -/
def seatNumberOrder (a b : SeatProps) : Prop :=
  charListLe a.seatNumber.data b.seatNumber.data = true

instance : DecidableRel seatNumberOrder := by
  unfold seatNumberOrder
  infer_instance

theorem charListLe_total : ∀ xs ys : List Char,
    charListLe xs ys = true ∨ charListLe ys xs = true
  | [], _ => Or.inl rfl
  | _ :: _, [] => Or.inr rfl
  | a :: as, b :: bs => by
    by_cases hab : a = b
    · subst hab
      simpa [charListLe] using charListLe_total as bs
    · rcases lt_or_gt_of_ne hab with h | h
      · exact Or.inl (by simp [charListLe, hab, h])
      · refine Or.inr (by simp [charListLe, Ne.symm hab, h])

theorem charListLe_trans : ∀ xs ys zs : List Char,
    charListLe xs ys = true → charListLe ys zs = true → charListLe xs zs = true
  | [], _, _ => by intro _ _; rfl
  | a :: as, [], _ => by intro h _; simp [charListLe] at h
  | a :: as, b :: bs, [] => by intro _ h; simp [charListLe] at h
  | a :: as, b :: bs, c :: cs => by
    intro h1 h2
    by_cases hab : a = b <;> by_cases hbc : b = c
    · subst hab; subst hbc
      simp only [charListLe, if_pos rfl] at h1 h2 ⊢
      exact charListLe_trans as bs cs h1 h2
    · subst hab
      simp only [charListLe, if_pos rfl] at h1
      simpa [charListLe, hbc] using h2
    · subst hbc
      simpa [charListLe, hab] using h1
    · simp only [charListLe, if_neg hab, decide_eq_true_eq] at h1
      simp only [charListLe, if_neg hbc, decide_eq_true_eq] at h2
      have hac : a < c := lt_trans h1 h2
      simp [charListLe, ne_of_lt hac, hac]

instance : IsTotal SeatProps seatNumberOrder :=
  ⟨fun a b => charListLe_total a.seatNumber.data b.seatNumber.data⟩

instance : IsTrans SeatProps seatNumberOrder :=
  ⟨fun a b c => charListLe_trans a.seatNumber.data b.seatNumber.data c.seatNumber.data⟩

/-! ## PrismaSeatRepository

The durable store. A database is a list of seat rows; `id` is the primary
key and `(eventId, seatNumber)` carries a unique index
(`seats_event_id_seat_number_key` in the migration). -/

/-- The `seats` table, as a list of rows. -/
abbrev Db := List SeatProps

/-- `findById`: `prisma.seat.findUnique({ where: { id } })`. -/
def prismaFindById (db : Db) (id : String) : Option SeatProps :=
  db.find? fun r => decide (r.id = id)

/-- `findByEventId`: rows of the event, ordered by `seatNumber` ascending
(text order). Modelled as a stable sort of the filtered rows. -/
def prismaFindByEventId (db : Db) (eventId : String) : List SeatProps :=
  List.insertionSort seatNumberOrder (db.filter fun r => decide (r.eventId = eventId))

/-- `findByIdWithVersion`: `findFirst({ where: { id, version } })` — a
direct, cache-bypassing, version-qualified read. -/
def prismaFindByIdWithVersion (db : Db) (id : String) (expectedVersion : Int) :
    Option SeatProps :=
  db.find? fun r => decide (r.id = id ∧ r.version = expectedVersion)

/-- The WHERE clause of the optimistic-locking `updateMany`: match on the
record's id and on `version = record.version - 1`. -/
def optimisticMatch (d : SeatProps) (r : SeatProps) : Prop :=
  r.id = d.id ∧ r.version = d.version - 1

instance (d : SeatProps) : DecidablePred (optimisticMatch d) := by
  unfold optimisticMatch
  infer_instance

/-- The SET clause of the optimistic `updateMany`, applied to one row:
matching rows take the record's status, userId and version; eventId,
seatNumber and price are immutable after creation and stay as stored. -/
def updateRow (d : SeatProps) (r : SeatProps) : SeatProps :=
  if optimisticMatch d r then
    { r with
        status := d.status
        userId := d.userId
        version := d.version }
  else r

/-- `PrismaSeatRepository.save`.

Version 1 is a `create` (insert), which the database rejects when the
primary key `id` or the unique `(eventId, seatNumber)` pair already
exists. Any later version is a single conditional `updateMany` writing
`status`, `userId` and `version` to the rows matching
`id AND version = record.version - 1` (eventId, seatNumber and price are
immutable after creation); if it reports zero affected rows, save throws
`ConcurrencyError('Seat', id, previousVersion)`. No internal retry. -/
def prismaSave (db : Db) (seat : Seat) : Except BookingError (Db × Seat) :=
  let d := seat.toJSON
  let previousVersion := d.version - 1
  if d.version = 1 then
    if db.any (fun r =>
        decide (r.id = d.id ∨ (r.eventId = d.eventId ∧ r.seatNumber = d.seatNumber))) then
      .error (.duplicateKey d.id)
    else
      .ok (db ++ [d], Seat.fromPersistence d)
  else
    let updatedDb := db.map (updateRow d)
    let affected := db.countP fun r => decide (optimisticMatch d r)
    if affected = 0 then
      .error (.concurrency "Seat" d.id previousVersion)
    else
      .ok (updatedDb, seat)

/-! ## Cache (Redis model)

The key/value cache holds JSON-serialized values: a single seat under
`seat:<id>` and a seat list under `event:<eventId>:seats`. Entries are
TTL-bounded and disposable; expiry does not affect the verified claims,
so it is not modelled (dropping entries never breaks the cache-aside
contract). All RedisService operations are best-effort: `get` returns
null on a Redis failure (degrading to a miss), `set` logs and continues
without caching, and `delete` logs and swallows the failure, leaving the
entries in place. `cacheGet`/`cacheSet`/`cacheDelete` model the calls
whose Redis round trip succeeds; `redisDelete` below carries the
delete's swallowed-failure path explicitly, which claim C6 depends on. -/

/-- A cached JSON value: a serialized seat or a serialized seat list. -/
inductive CacheVal
  | seatVal (props : SeatProps)
  | listVal (rows : List SeatProps)
deriving DecidableEq

abbrev Cache := List (String × CacheVal)

/-- `cache.get(key)`: the most recently set value for the key, if any. -/
def cacheGet (c : Cache) (k : String) : Option CacheVal :=
  (c.find? fun p => decide (p.1 = k)).map Prod.snd

/-- `cache.set(key, value, ttlSeconds)`: newest entry shadows older ones. -/
def cacheSet (c : Cache) (k : String) (v : CacheVal) (ttlSeconds : Int) : Cache :=
  let _ := ttlSeconds
  (k, v) :: c

/-- The effect of a `cache.delete(key)` whose Redis call succeeds:
every entry for the key is removed. -/
def cacheDelete (c : Cache) (k : String) : Cache :=
  c.filter fun p => decide (p.1 ≠ k)

/-- `RedisService.delete(key)` is best-effort: the `redis.del` call is
wrapped in try/catch, and a thrown Redis error is logged and swallowed,
leaving the entries in place. `delOk` records whether the Redis call
succeeded in the modelled execution. -/
def redisDelete (c : Cache) (k : String) (delOk : Bool) : Cache :=
  if delOk then cacheDelete c k else c

/-- `CACHE_KEYS.seat(id)`. -/
def seatKey (id : String) : String := "seat:" ++ id

/-- `CACHE_KEYS.eventSeats(eventId)`. -/
def eventSeatsKey (eventId : String) : String := "event:" ++ eventId ++ ":seats"

/-- `DEFAULT_TTL_SECONDS`. -/
def DEFAULT_TTL_SECONDS : Int := 60

/-- Reads the serialized seat stored under a per-seat key. Per-seat keys
(`seat:...`) and per-event keys (`event:...:seats`) never collide, so a
value found under a seat key is always a serialized seat. -/
def cacheGetSeat (c : Cache) (k : String) : Option SeatProps :=
  match cacheGet c k with
  | some (.seatVal p) => some p
  | _ => none

/-- Reads the serialized seat list stored under a per-event key. -/
def cacheGetList (c : Cache) (k : String) : Option (List SeatProps) :=
  match cacheGet c k with
  | some (.listVal rows) => some rows
  | _ => none

/-! ## CachedSeatRepository (cache-aside decorator) -/

/-- The state threaded through the cached repository and the service:
durable rows plus cache entries. -/
structure Store where
  db : Db
  cache : Cache
deriving DecidableEq

/-- `CachedSeatRepository.findById`: cache hit → reconstitute from the
cached JSON; miss → read the store, then populate the cache (TTL 60s). -/
def cachedFindById (st : Store) (id : String) : Option Seat × Store :=
  match cacheGetSeat st.cache (seatKey id) with
  | some cached => (some (Seat.fromPersistence cached), st)
  | none =>
    match prismaFindById st.db id with
    | none => (none, st)
    | some row =>
      let seat := Seat.fromPersistence row
      (some seat,
       { st with
          cache := cacheSet st.cache (seatKey id) (.seatVal seat.toJSON)
                     DEFAULT_TTL_SECONDS })

/-- `CachedSeatRepository.findByEventId`: cache hit → reconstitute each
entry; miss → read the store and cache the list only when non-empty. -/
def cachedFindByEventId (st : Store) (eventId : String) : List Seat × Store :=
  match cacheGetList st.cache (eventSeatsKey eventId) with
  | some cached => (cached.map Seat.fromPersistence, st)
  | none =>
    let seats := prismaFindByEventId st.db eventId
    if seats.length > 0 then
      (seats.map Seat.fromPersistence,
       { st with
          cache := cacheSet st.cache (eventSeatsKey eventId)
                     (.listVal (seats.map fun s => (Seat.fromPersistence s).toJSON))
                     DEFAULT_TTL_SECONDS })
    else
      (seats.map Seat.fromPersistence, st)

/-- `CachedSeatRepository.findByIdWithVersion` always bypasses the cache. -/
def cachedFindByIdWithVersion (st : Store) (id : String) (expectedVersion : Int) :
    Option Seat :=
  (prismaFindByIdWithVersion st.db id expectedVersion).map Seat.fromPersistence

/-- `CachedSeatRepository.save`: durable write first; only after it
succeeds, delete the per-seat key and the per-event seat-list key. A
failed durable write changes nothing (the failed insert or zero-row
update leaves the rows untouched and the deletes are never reached). -/
def cachedSave (st : Store) (seat : Seat) : Except BookingError (Store × Seat) :=
  match prismaSave st.db seat with
  | .error e => .error e
  | .ok (db2, savedSeat) =>
    let c1 := cacheDelete st.cache (seatKey seat.props.id)
    let c2 := cacheDelete c1 (eventSeatsKey seat.props.eventId)
    .ok ({ db := db2, cache := c2 }, savedSeat)

/-- `CachedSeatRepository.save` over the best-effort cache: the two
key deletes go through `RedisService.delete`, whose failures are logged
and swallowed, so `save` still resolves successfully when a delete's
Redis call fails — only the entries then survive. `delSeatOk` and
`delEventOk` record whether the two Redis calls succeeded.
`cachedSave` is the execution in which both succeed. -/
def cachedSaveFallible (st : Store) (seat : Seat) (delSeatOk delEventOk : Bool) :
    Except BookingError (Store × Seat) :=
  match prismaSave st.db seat with
  | .error e => .error e
  | .ok (db2, savedSeat) =>
    let c1 := redisDelete st.cache (seatKey seat.props.id) delSeatOk
    let c2 := redisDelete c1 (eventSeatsKey seat.props.eventId) delEventOk
    .ok ({ db := db2, cache := c2 }, savedSeat)

theorem cachedSaveFallible_true_eq (st : Store) (seat : Seat) :
    cachedSaveFallible st seat true true = cachedSave st seat := rfl

/-! ## BookingService

Each operation is read → validate → transition → persist through the
cache-invalidating path. The fire-and-forget event publish that follows a
successful lock or sale neither changes the store nor the returned
result; it is modelled separately (`publisherPublish`). Thrown errors are
returned as `Except.error` alongside the state as left by the completed
reads/writes. -/

/-- `BookingService.lockSeat(seatId, userId)`. -/
def lockSeat (st : Store) (seatId userId : String) : Store × Except BookingError Seat :=
  match cachedFindById st seatId with
  | (none, st1) => (st1, .error (.seatNotFound seatId))
  | (some seat, st1) =>
    if seat.isAvailable then
      match seat.lock userId with
      | .error msg => (st1, .error (.invalidTransition msg))
      | .ok lockedSeat =>
        match cachedSave st1 lockedSeat with
        | .error e => (st1, .error e)
        | .ok (st2, _saved) => (st2, .ok lockedSeat)
    else
      (st1, .error (.seatNotAvailable seatId (statusToString seat.props.status)))

/-- `BookingService.releaseSeat(seatId, userId)`. -/
def releaseSeat (st : Store) (seatId userId : String) : Store × Except BookingError Seat :=
  match cachedFindById st seatId with
  | (none, st1) => (st1, .error (.seatNotFound seatId))
  | (some seat, st1) =>
    if seat.isLockedBy userId then
      match seat.release with
      | .error msg => (st1, .error (.invalidTransition msg))
      | .ok releasedSeat =>
        match cachedSave st1 releasedSeat with
        | .error e => (st1, .error e)
        | .ok (st2, _saved) => (st2, .ok releasedSeat)
    else
      (st1, .error (.unauthorizedLock userId seatId))

/-- `BookingService.confirmSale(seatId, userId)`. -/
def confirmSale (st : Store) (seatId userId : String) : Store × Except BookingError Seat :=
  match cachedFindById st seatId with
  | (none, st1) => (st1, .error (.seatNotFound seatId))
  | (some seat, st1) =>
    if seat.isLockedBy userId then
      match seat.sell with
      | .error msg => (st1, .error (.invalidTransition msg))
      | .ok soldSeat =>
        match cachedSave st1 soldSeat with
        | .error e => (st1, .error e)
        | .ok (st2, _saved) => (st2, .ok soldSeat)
    else
      (st1, .error (.unauthorizedLock userId seatId))

/-! ## RabbitMQEventPublisher

`publish(queue, event)` resolves a correlation id (the event's own, or
the ambient request-context one), attempts transport delivery with that
id in the `x-correlation-id` header, and wraps the whole attempt in
try/catch: a success is logged at info level, a transport failure is
logged at error level and swallowed. The transport (connection plus
delivery) is abstracted as a function from queue and header correlation
id to a fallible outcome. -/

/-- The fields of a domain event the publisher looks at. -/
structure DomainEvent where
  eventType : String
  correlationId : Option String
deriving DecidableEq

/-- What a publish attempt did: the header it attached and whether a
transport failure was caught and logged. -/
structure PublishAttempt where
  queue : String
  headerCorrelationId : String
  errorLogged : Bool
deriving DecidableEq

/-- `RabbitMQEventPublisher.publish`: never throws; transport failures
are caught, logged and swallowed. `ambientCorrelationId` is what
`getCorrelationId()` returns from the request context (always a string:
it generates a fresh UUID when no context exists). -/
def publisherPublish (queue : String) (event : DomainEvent)
    (ambientCorrelationId : String)
    (transport : String → String → Except String Unit) :
    PublishAttempt × Except String Unit :=
  let correlationId := event.correlationId.getD ambientCorrelationId
  match transport queue correlationId with
  | .ok _ =>
    ({ queue := queue, headerCorrelationId := correlationId, errorLogged := false },
     .ok ())
  | .error _ =>
    ({ queue := queue, headerCorrelationId := correlationId, errorLogged := true },
     .ok ())

/-! ## Worker (QueueConsumer)

The consume handler in src/worker.ts wraps everything — JSON parse,
correlation extraction, `processSeatSoldEvent` (PDF generation then email
dispatch) — in try/catch. Full success acks the message; any thrown error
nacks it with `requeue = true`. The two downstream tasks and the parse are
abstracted as fallible outcomes; the broker's reaction is modelled on the
pending-message list: ack removes the in-flight message for good, nack
with requeue returns it to the queue. -/

/-- The manual-acknowledgment outcome of handling one message. -/
inductive AckAction
  | ack
  | nackRequeue
deriving DecidableEq

/-- `processSeatSoldEvent`: generate the PDF ticket, then send the email
notification, sequentially; the first failure aborts the rest. -/
def processSeatSoldEvent (pdfResult emailResult : Except String Unit) :
    Except String Unit :=
  pdfResult.bind fun _ => emailResult

/-- The consume callback: try(parse; process; ack) catch(nack requeue). -/
def consumeHandler (parseResult pdfResult emailResult : Except String Unit) :
    AckAction :=
  match parseResult.bind fun _ => processSeatSoldEvent pdfResult emailResult with
  | .ok _ => .ack
  | .error _ => .nackRequeue

/-- The queue after the broker applies the handler's outcome to the
in-flight message `m` (the remaining queue being `pending`): `ack`
permanently removes `m`; `nack(requeue=true)` returns it to the queue. -/
def queueAfterOutcome (m : String) (pending : List String) : AckAction → List String
  | .ack => pending
  | .nackRequeue => pending ++ [m]

/-! ## Reachable seats

Seats reachable from `Seat.create` by successful entity transitions; the
domain the state-machine invariants quantify over. -/

/-- A seat value producible by the domain layer: created fresh, or the
successful result of `lock`, `sell` or `release` on a reachable seat. -/
inductive Reachable : Seat → Prop
  | created (id eventId seatNumber : String) (price : Rat) :
      Reachable (Seat.create id eventId seatNumber price)
  | locked {s t : Seat} (u : String) :
      Reachable s → s.lock u = .ok t → Reachable t
  | sold {s t : Seat} :
      Reachable s → s.sell = .ok t → Reachable t
  | released {s t : Seat} :
      Reachable s → s.release = .ok t → Reachable t

/-! ## Concrete fixtures for witnesses and counterexamples -/

/-- An AVAILABLE seat s1 of event e1, seat number A-1, version 1. -/
def availW : Seat := Seat.create "s1" "e1" "A-1" 10

/-- `availW` after `lock("u1")`: LOCKED by u1, version 2. -/
def lockedW : Seat :=
  ⟨{ id := "s1", status := .LOCKED, userId := some "u1", version := 2,
     price := 10, seatNumber := "A-1", eventId := "e1" }⟩

/-- `lockedW` after `sell()`: SOLD, holder retained, version 3. -/
def soldW : Seat :=
  ⟨{ id := "s1", status := .SOLD, userId := some "u1", version := 3,
     price := 10, seatNumber := "A-1", eventId := "e1" }⟩

/-- A store holding only the available seat row, with an empty cache. -/
def storeW : Store := { db := [availW.props], cache := [] }

/-- A store where s1 is already SOLD by u1 (as after lock then sale). -/
def storeSoldW : Store := { db := [soldW.props], cache := [] }

example : (availW.lock "u1") = .ok lockedW := by decide

example : lockedW.sell = .ok soldW := by decide

example : (lockSeat storeW "s1" "u1").2 = .ok lockedW := by decide

example : (confirmSale storeSoldW "s1" "u1").2 =
    .error (.unauthorizedLock "u1" "s1") := by decide

/-! ## Helper lemmas -/

/-- The successful result of `lock(u)` on `s`. -/
def lockedSuccessor (s : Seat) (u : String) : Seat :=
  ⟨{ s.props with
      status := .LOCKED
      userId := some u
      version := s.props.version + 1 }⟩

/-- The successful result of `sell()` on `s`. -/
def soldSuccessor (s : Seat) : Seat :=
  ⟨{ s.props with
      status := .SOLD
      version := s.props.version + 1 }⟩

/-- The successful result of `release()` on `s`. -/
def releasedSuccessor (s : Seat) : Seat :=
  ⟨{ s.props with
      status := .AVAILABLE
      userId := none
      version := s.props.version + 1 }⟩

theorem lock_ok_iff (s t : Seat) (u : String) :
    s.lock u = .ok t ↔
      s.props.status = SeatStatus.AVAILABLE ∧ t = lockedSuccessor s u := by
  unfold Seat.lock lockedSuccessor
  by_cases h : s.props.status = SeatStatus.AVAILABLE <;> simp [h, eq_comm]

theorem sell_ok_iff (s t : Seat) :
    s.sell = .ok t ↔
      s.props.status = SeatStatus.LOCKED ∧ t = soldSuccessor s := by
  unfold Seat.sell soldSuccessor
  by_cases h : s.props.status = SeatStatus.LOCKED <;> simp [h, eq_comm]

theorem release_ok_iff (s t : Seat) :
    s.release = .ok t ↔
      s.props.status = SeatStatus.LOCKED ∧ t = releasedSuccessor s := by
  unfold Seat.release releasedSuccessor
  by_cases h : s.props.status = SeatStatus.LOCKED <;> simp [h, eq_comm]

/-- A cache-aside read never touches the durable rows. -/
theorem cachedFindById_db_eq (st : Store) (id : String) :
    ((cachedFindById st id).2).db = st.db := by
  unfold cachedFindById
  cases hc : cacheGetSeat st.cache (seatKey id) <;>
    [skip; simp]
  cases hf : prismaFindById st.db id <;> simp

theorem cacheGet_cacheDelete_self (c : Cache) (k : String) :
    cacheGet (cacheDelete c k) k = none := by
  simp only [cacheGet, cacheDelete, Option.map_eq_none', List.find?_eq_none]
  intro p hp
  simpa using (List.mem_filter.mp hp).2

theorem cacheGet_cacheDelete_of_none (c : Cache) (j k : String)
    (h : cacheGet c k = none) : cacheGet (cacheDelete c j) k = none := by
  simp only [cacheGet, cacheDelete, Option.map_eq_none', List.find?_eq_none] at h ⊢
  intro p hp
  exact h p (List.mem_filter.mp hp).1

theorem cacheGetSeat_of_none (c : Cache) (k : String) (h : cacheGet c k = none) :
    cacheGetSeat c k = none := by
  unfold cacheGetSeat
  rw [h]

/-- On a per-seat cache miss, `findById` surfaces exactly the durable row. -/
theorem cachedFindById_fst_of_miss (st : Store) (id : String)
    (h : cacheGetSeat st.cache (seatKey id) = none) :
    (cachedFindById st id).1 = (prismaFindById st.db id).map Seat.fromPersistence := by
  unfold cachedFindById
  rw [h]
  cases hf : prismaFindById st.db id <;> simp

/-! ## Claims -/

/-- C10: for every seat `s`, `Seat.fromPersistence(s.toJSON())` yields a
seat agreeing with `s` on id, eventId, seatNumber, price, status, userId
and version — the round trip the cache hit path relies on. -/
theorem fromPersistence_toJSON_roundtrip (s : Seat) :
    (Seat.fromPersistence s.toJSON).id = s.id ∧
    (Seat.fromPersistence s.toJSON).eventId = s.eventId ∧
    (Seat.fromPersistence s.toJSON).seatNumber = s.seatNumber ∧
    (Seat.fromPersistence s.toJSON).price = s.price ∧
    (Seat.fromPersistence s.toJSON).status = s.status ∧
    (Seat.fromPersistence s.toJSON).userId = s.userId ∧
    (Seat.fromPersistence s.toJSON).version = s.version :=
  ⟨rfl, rfl, rfl, rfl, rfl, rfl, rfl⟩

/-- C8: `EventPublisher.publish` never raises to its caller: whatever the
transport does (including failing during connection or delivery), the
result is success; a transport failure only sets the error-logged flag.
The attached header correlation id is the event's own, falling back to
the ambient request-context one. -/
theorem publish_never_raises (queue : String) (event : DomainEvent)
    (ambient : String) (transport : String → String → Except String Unit) :
    (publisherPublish queue event ambient transport).2 = .ok () ∧
    (publisherPublish queue event ambient transport).1.headerCorrelationId =
      event.correlationId.getD ambient ∧
    (∀ e, transport queue (event.correlationId.getD ambient) = .error e →
      (publisherPublish queue event ambient transport).1.errorLogged = true) := by
  unfold publisherPublish
  cases h : transport queue (event.correlationId.getD ambient) <;> simp [h]

/-- Witness for C8 at a concrete failing transport. -/
theorem publish_never_raises_witness :
    (publisherPublish "ticket_generation_queue" ⟨"SEAT_SOLD", none⟩ "cid-1"
        (fun _ _ => .error "ECONNREFUSED")).2 = .ok () ∧
    (publisherPublish "ticket_generation_queue" ⟨"SEAT_SOLD", none⟩ "cid-1"
        (fun _ _ => .error "ECONNREFUSED")).1.errorLogged = true := by
  have h := publish_never_raises "ticket_generation_queue" ⟨"SEAT_SOLD", none⟩
    "cid-1" (fun _ _ => .error "ECONNREFUSED")
  exact ⟨h.1, h.2.2 "ECONNREFUSED" rfl⟩

/-- C9: the worker runs the downstream tasks and acknowledges only on
full success, permanently removing the message; any processing failure
nacks with requeue, so the message returns to the queue and is never
dropped. -/
theorem worker_ack_or_requeue (m : String) (pending : List String)
    (parseResult pdfResult emailResult : Except String Unit) :
    (parseResult.bind (fun _ => processSeatSoldEvent pdfResult emailResult) = .ok () →
      consumeHandler parseResult pdfResult emailResult = .ack ∧
      queueAfterOutcome m pending .ack = pending) ∧
    (∀ e,
      parseResult.bind (fun _ => processSeatSoldEvent pdfResult emailResult) = .error e →
      consumeHandler parseResult pdfResult emailResult = .nackRequeue ∧
      m ∈ queueAfterOutcome m pending .nackRequeue) := by
  constructor
  · intro h
    simp [consumeHandler, h, queueAfterOutcome]
  · intro e h
    simp [consumeHandler, h, queueAfterOutcome]

/-- Witness for C9: a failure in the middle of processing (the PDF task
raising) leads to nack-with-requeue and the message back in the queue. -/
theorem worker_ack_or_requeue_witness :
    consumeHandler (.ok ()) (.error "pdf renderer crashed") (.ok ()) = .nackRequeue ∧
    "msg-1" ∈ queueAfterOutcome "msg-1" [] .nackRequeue :=
  (worker_ack_or_requeue "msg-1" [] (.ok ()) (.error "pdf renderer crashed")
    (.ok ())).2 "pdf renderer crashed" rfl

/-- Seat A-2 of event e1. -/
def rowA2 : SeatProps :=
  { id := "s2", status := .AVAILABLE, userId := none, version := 1,
    price := 10, seatNumber := "A-2", eventId := "e1" }

/-- Seat A-10 of event e1. -/
def rowA10 : SeatProps :=
  { id := "s10", status := .AVAILABLE, userId := none, version := 1,
    price := 10, seatNumber := "A-10", eventId := "e1" }

/-- Counterexample to C7: the repository's `findByEventId` sort is the
store's plain text sort, which puts "A-10" before "A-2" — not the
numeric-aware order the claim states (that order is applied later, by the
seats API route). -/
theorem findByEventId_not_numeric_aware :
    prismaFindByEventId [rowA2, rowA10] "e1" = [rowA10, rowA2] ∧
    (prismaFindByEventId [rowA2, rowA10] "e1").map SeatProps.seatNumber =
      ["A-10", "A-2"] ∧
    (["A-10", "A-2"] : List String) ≠ ["A-2", "A-10"] := by decide

/-- C7 amended: `findByEventId(eventId)` returns exactly the event's seat
records, ordered lexicographically by seatNumber (the store's text
`ORDER BY seatNumber ASC`), under which "A-10" sorts before "A-2". -/
theorem findByEventId_sorted_lexicographic (db : Db) (eventId : String) :
    List.Sorted seatNumberOrder (prismaFindByEventId db eventId) ∧
    (prismaFindByEventId db eventId).Perm
      (db.filter fun r => decide (r.eventId = eventId)) ∧
    ∀ r ∈ prismaFindByEventId db eventId, r.eventId = eventId := by
  refine ⟨List.sorted_insertionSort seatNumberOrder _,
          List.perm_insertionSort seatNumberOrder _, ?_⟩
  intro r hr
  have hmem := (List.perm_insertionSort seatNumberOrder
    (db.filter fun r => decide (r.eventId = eventId))).mem_iff.mp hr
  simpa using (List.mem_filter.mp hmem).2

/-- Counterexample to C5: a reachable SOLD seat retains its buyer's id,
so holderId is non-null while the status is not LOCKED — refuting
"holderId is non-null iff status is LOCKED" as stated. -/
theorem sold_seat_retains_holder :
    Reachable soldW ∧
    soldW.props.status = SeatStatus.SOLD ∧
    soldW.props.userId = some "u1" ∧
    ¬(soldW.props.userId ≠ none ↔ soldW.props.status = SeatStatus.LOCKED) := by
  refine ⟨?_, rfl, rfl, by decide⟩
  have h1 : Reachable lockedW :=
    Reachable.locked "u1" (Reachable.created "s1" "e1" "A-1" 10) (by decide)
  exact Reachable.sold h1 (by decide)

/-- `sell()` keeps the holder: it only rewrites status and version. -/
theorem sell_retains_userId (s t : Seat) (h : s.sell = .ok t) :
    t.props.userId = s.props.userId := by
  rw [sell_ok_iff] at h
  rw [h.2]
  rfl

/-- C5 amended: for every seat reachable from creation via
lock/sell/release, holderId is non-null iff the status is LOCKED or SOLD
(the holder is retained through LOCKED→SOLD to identify the buyer, and
cleared only on release back to AVAILABLE); and `sell()` retains the
holder's userId. -/
theorem holder_invariant (s : Seat) (h : Reachable s) :
    (s.props.userId ≠ none ↔
      (s.props.status = SeatStatus.LOCKED ∨ s.props.status = SeatStatus.SOLD)) ∧
    (∀ t, s.sell = .ok t → t.props.userId = s.props.userId) := by
  refine ⟨?_, fun t ht => sell_retains_userId s t ht⟩
  induction h with
  | created id eventId seatNumber price =>
    simp [Seat.create]
  | locked u hs hlock ih =>
    rw [lock_ok_iff] at hlock
    rw [hlock.2]
    simp [lockedSuccessor]
  | sold hs hsell ih =>
    obtain ⟨hstat, ht⟩ := (sell_ok_iff _ _).mp hsell
    subst ht
    constructor
    · intro _
      exact Or.inr rfl
    · intro _
      exact ih.mpr (Or.inl hstat)
  | released hs hrel ih =>
    rw [release_ok_iff] at hrel
    rw [hrel.2]
    simp [releasedSuccessor]

/-- Witness for C5 (amended) at the concrete reachable SOLD seat. -/
theorem holder_invariant_witness :
    soldW.props.userId ≠ none ↔
      (soldW.props.status = SeatStatus.LOCKED ∨
       soldW.props.status = SeatStatus.SOLD) := by
  have h1 : Reachable lockedW :=
    Reachable.locked "u1" (Reachable.created "s1" "e1" "A-1" 10) (by decide)
  have h2 : Reachable soldW := Reachable.sold h1 (by decide)
  exact (holder_invariant soldW h2).1

/-- C6 amended: a successful `save` through the cached repository in
which both best-effort cache deletes succeed leaves no cache entry under
the per-seat key or the per-event seat-list key, so a subsequent
`findById` for the same id reads the durable post-write row — it cannot
return the pre-write cached value. (When a delete's Redis call fails,
the failure is logged and swallowed, the save still succeeds, and the
stale entry can be served until its TTL expires.) -/
theorem save_invalidates_cache_when_deletes_succeed (st : Store) (s : Seat)
    (st2 : Store) (r : Seat)
    (h : cachedSaveFallible st s true true = .ok (st2, r)) :
    cacheGet st2.cache (seatKey s.props.id) = none ∧
    cacheGet st2.cache (eventSeatsKey s.props.eventId) = none ∧
    (cachedFindById st2 s.props.id).1 =
      (prismaFindById st2.db s.props.id).map Seat.fromPersistence := by
  rw [cachedSaveFallible_true_eq] at h
  have hcache : st2.cache =
      cacheDelete (cacheDelete st.cache (seatKey s.props.id))
        (eventSeatsKey s.props.eventId) := by
    revert h
    unfold cachedSave
    cases hp : prismaSave st.db s with
    | error e =>
      intro h
      cases h
    | ok pr =>
      obtain ⟨db2, saved⟩ := pr
      intro h
      simp only [Except.ok.injEq, Prod.mk.injEq] at h
      rw [← h.1]
  refine ⟨?_, ?_, ?_⟩
  · rw [hcache]
    exact cacheGet_cacheDelete_of_none _ _ _ (cacheGet_cacheDelete_self _ _)
  · rw [hcache]
    exact cacheGet_cacheDelete_self _ _
  · apply cachedFindById_fst_of_miss
    apply cacheGetSeat_of_none
    rw [hcache]
    exact cacheGet_cacheDelete_of_none _ _ _ (cacheGet_cacheDelete_self _ _)

/-- A store whose cache still holds the pre-write (AVAILABLE) copy of s1. -/
def storeCachedW : Store :=
  { db := [availW.props], cache := [(seatKey "s1", .seatVal availW.props)] }

/-- `storeCachedW` after saving `lockedW`: row updated, cache emptied. -/
def storeAfterSaveW : Store := { db := [lockedW.props], cache := [] }

example : cachedSave storeCachedW lockedW = .ok (storeAfterSaveW, lockedW) := by
  decide

/-- `storeCachedW` after saving `lockedW` while both Redis delete calls
fail (logged and swallowed): row updated, stale cache entry surviving. -/
def storeStaleW : Store :=
  { db := [lockedW.props], cache := [(seatKey "s1", .seatVal availW.props)] }

/-- Counterexample to C6: the cache deletes after a durable write go
through RedisService.delete, which catches, logs and swallows Redis
failures. When the per-seat delete's Redis call fails, `save` still
succeeds, the pre-write entry (the AVAILABLE version-1 copy of s1)
survives under the per-seat key, and the subsequent `findById` returns
exactly that pre-write cached value even though the durable row is now
LOCKED at version 2 — so "never returns the pre-write cached value"
does not hold unconditionally. -/
theorem stale_cache_after_swallowed_delete_failure :
    cacheGet storeCachedW.cache (seatKey "s1") = some (.seatVal availW.props) ∧
    cachedSaveFallible storeCachedW lockedW false false =
      .ok (storeStaleW, lockedW) ∧
    (cachedFindById storeStaleW "s1").1 = some availW ∧
    prismaFindById storeStaleW.db "s1" = some lockedW.props ∧
    availW ≠ Seat.fromPersistence lockedW.props := by
  decide

/-- Witness for C6 (amended): saving over a populated cache with both
deletes succeeding leaves both keys absent and `findById` reads the
durable row. -/
theorem save_invalidates_cache_when_deletes_succeed_witness :
    cacheGet storeAfterSaveW.cache (seatKey "s1") = none ∧
    cacheGet storeAfterSaveW.cache (eventSeatsKey "e1") = none ∧
    (cachedFindById storeAfterSaveW "s1").1 =
      (prismaFindById storeAfterSaveW.db "s1").map Seat.fromPersistence :=
  save_invalidates_cache_when_deletes_succeed storeCachedW lockedW
    storeAfterSaveW lockedW (by decide)

/-- `toJSON` is a field-wise copy of the props. -/
theorem toJSON_eq_props (s : Seat) : s.toJSON = s.props := rfl

/-- A record for s1 at version 2 whose price differs from the stored row. -/
def recPriceChangedW : Seat :=
  ⟨{ id := "s1", status := .LOCKED, userId := some "u1", version := 2,
     price := 99, seatNumber := "A-1", eventId := "e1" }⟩

/-- Counterexample to C1: when a row matches the conditional update, only
status, userId and version are written; a given record whose price
differs from the stored row is saved successfully, yet the stored record
does not become the given record (the stored price survives). -/
theorem save_not_full_record_overwrite :
    prismaSave [availW.props] recPriceChangedW =
      .ok ([lockedW.props], recPriceChangedW) ∧
    lockedW.props ≠ recPriceChangedW.props ∧
    lockedW.props.price = 10 ∧
    recPriceChangedW.props.price = 99 ∧
    prismaFindById [lockedW.props] "s1" ≠ some recPriceChangedW.props := by
  decide

/-- C1 amended: for a record with version v ≥ 2, `save` issues a single
conditional update matching the record's id and stored version v − 1,
with no internal retry: if zero rows match it throws
ConcurrencyError("Seat", id, v − 1); if a row matches, the matching
stored row takes the record's status, userId and version while keeping
its stored eventId, seatNumber and price (so it becomes the given record
exactly when those immutable columns already agree), and the other rows
are untouched. For a record with version 1, `save` inserts it as a new
row, failing with the unique-constraint violation when the id or the
(eventId, seatNumber) pair is already present. -/
theorem save_conditional_update (db : Db) (s : Seat) :
    (2 ≤ s.props.version →
      ((∀ r ∈ db, ¬ optimisticMatch s.props r) →
        prismaSave db s =
          .error (.concurrency "Seat" s.props.id (s.props.version - 1))) ∧
      ((∃ r ∈ db, optimisticMatch s.props r) →
        prismaSave db s = .ok (db.map (updateRow s.props), s) ∧
        ∀ (i : Nat) (r : SeatProps), db[i]? = some r →
          (db.map (updateRow s.props))[i]? = some (updateRow s.props r))) ∧
    (s.props.version = 1 →
      ((∀ r ∈ db, ¬(r.id = s.props.id ∨
          (r.eventId = s.props.eventId ∧ r.seatNumber = s.props.seatNumber))) →
        prismaSave db s = .ok (db ++ [s.props], Seat.fromPersistence s.props)) ∧
      ((∃ r ∈ db, r.id = s.props.id ∨
          (r.eventId = s.props.eventId ∧ r.seatNumber = s.props.seatNumber)) →
        prismaSave db s = .error (.duplicateKey s.props.id))) := by
  have hsave : prismaSave db s =
      if s.props.version = 1 then
        if db.any (fun r => decide (r.id = s.props.id ∨
            (r.eventId = s.props.eventId ∧ r.seatNumber = s.props.seatNumber))) then
          .error (.duplicateKey s.props.id)
        else
          .ok (db ++ [s.props], Seat.fromPersistence s.props)
      else
        if (db.countP fun r => decide (optimisticMatch s.props r)) = 0 then
          .error (.concurrency "Seat" s.props.id (s.props.version - 1))
        else
          .ok (db.map (updateRow s.props), s) := rfl
  constructor
  · intro h2
    have hne : ¬ s.props.version = 1 := by omega
    constructor
    · intro hnone
      have hcount : (db.countP fun r => decide (optimisticMatch s.props r)) = 0 :=
        List.countP_eq_zero.mpr (by intro a ha; simpa using hnone a ha)
      rw [hsave, if_neg hne, if_pos hcount]
    · intro hex
      have hcount : ¬ (db.countP fun r => decide (optimisticMatch s.props r)) = 0 := by
        have hpos : 0 < db.countP fun r => decide (optimisticMatch s.props r) := by
          obtain ⟨r, hr, hm⟩ := hex
          exact List.countP_pos_iff.mpr ⟨r, hr, by simpa using hm⟩
        omega
      refine ⟨by rw [hsave, if_neg hne, if_neg hcount], ?_⟩
      intro i r hir
      rw [List.getElem?_map, hir]
      rfl
  · intro h1
    constructor
    · intro hnone
      have hany : (db.any fun r => decide (r.id = s.props.id ∨
          (r.eventId = s.props.eventId ∧ r.seatNumber = s.props.seatNumber))) = false := by
        simp only [List.any_eq_false, decide_eq_true_eq]
        exact hnone
      rw [hsave, if_pos h1, hany]
      rfl
    · intro hex
      have hany : (db.any fun r => decide (r.id = s.props.id ∨
          (r.eventId = s.props.eventId ∧ r.seatNumber = s.props.seatNumber))) = true := by
        simp only [List.any_eq_true, decide_eq_true_eq]
        exact hex
      rw [hsave, if_pos h1, hany]
      rfl

/-- Witness for C1 (amended), the zero-rows-affected branch (Scenario D):
the stored row is already at version 3, so saving a version-2 record
(expecting stored version 1) raises ConcurrencyError("Seat", s1, 1). -/
theorem save_conditional_update_witness :
    prismaSave [soldW.props] lockedW = .error (.concurrency "Seat" "s1" 1) :=
  ((save_conditional_update [soldW.props] lockedW).1 (by decide)).1 (by decide)

theorem isAvailable_iff (s : Seat) :
    s.isAvailable = true ↔ s.props.status = SeatStatus.AVAILABLE := by
  simp [Seat.isAvailable]

theorem isLockedBy_iff (s : Seat) (u : String) :
    s.isLockedBy u = true ↔
      (s.props.status = SeatStatus.LOCKED ∧ s.props.userId = some u) := by
  simp [Seat.isLockedBy]

/-- Inversion for a successful `lockSeat`: the read found an AVAILABLE
seat, the result is its locked successor, and the state is the one left
by persisting exactly that successor through the cache-invalidating path. -/
theorem lockSeat_ok_inv (st : Store) (sid uid : String) (t : Seat)
    (h : (lockSeat st sid uid).2 = .ok t) :
    ∃ s0, (cachedFindById st sid).1 = some s0 ∧
      s0.props.status = SeatStatus.AVAILABLE ∧
      t = lockedSuccessor s0 uid ∧
      ∃ st2 saved,
        cachedSave (cachedFindById st sid).2 (lockedSuccessor s0 uid) =
          .ok (st2, saved) ∧
        lockSeat st sid uid = (st2, .ok (lockedSuccessor s0 uid)) := by
  revert h
  unfold lockSeat
  rcases hfind : cachedFindById st sid with ⟨found, st1⟩
  cases found with
  | none =>
    intro h
    cases h
  | some seat =>
    dsimp only
    by_cases hav : seat.isAvailable = true
    · rw [if_pos hav]
      have hst : seat.props.status = SeatStatus.AVAILABLE :=
        (isAvailable_iff seat).mp hav
      have hlock : seat.lock uid = .ok (lockedSuccessor seat uid) :=
        (lock_ok_iff seat (lockedSuccessor seat uid) uid).mpr ⟨hst, rfl⟩
      rw [hlock]
      dsimp only
      cases hsv : cachedSave st1 (lockedSuccessor seat uid) with
      | error e =>
        dsimp only
        intro h
        cases h
      | ok pr =>
        obtain ⟨st2, saved⟩ := pr
        dsimp only
        intro h
        simp only [Except.ok.injEq] at h
        exact ⟨seat, rfl, hst, h.symm, st2, saved, hsv, by rw [h]⟩
    · rw [if_neg hav]
      intro h
      cases h

/-- Every failing `lockSeat` leaves the durable rows unchanged. -/
theorem lockSeat_error_db (st : Store) (sid uid : String) (e : BookingError)
    (h : (lockSeat st sid uid).2 = .error e) :
    ((lockSeat st sid uid).1).db = st.db := by
  have hdb : ((cachedFindById st sid).2).db = st.db := cachedFindById_db_eq st sid
  revert h
  unfold lockSeat
  rcases hfind : cachedFindById st sid with ⟨found, st1⟩
  rw [hfind] at hdb
  cases found with
  | none =>
    intro _
    exact hdb
  | some seat =>
    dsimp only
    by_cases hav : seat.isAvailable = true
    · rw [if_pos hav]
      have hst : seat.props.status = SeatStatus.AVAILABLE :=
        (isAvailable_iff seat).mp hav
      have hlock : seat.lock uid = .ok (lockedSuccessor seat uid) :=
        (lock_ok_iff seat (lockedSuccessor seat uid) uid).mpr ⟨hst, rfl⟩
      rw [hlock]
      dsimp only
      cases hsv : cachedSave st1 (lockedSuccessor seat uid) with
      | error e2 =>
        dsimp only
        intro _
        exact hdb
      | ok pr =>
        obtain ⟨st2, saved⟩ := pr
        dsimp only
        intro h
        cases h
    · rw [if_neg hav]
      intro _
      exact hdb

/-- `lockSeat` on an absent seat: SeatNotFoundError, state as read. -/
theorem lockSeat_none (st : Store) (sid uid : String)
    (h : (cachedFindById st sid).1 = none) :
    lockSeat st sid uid =
      ((cachedFindById st sid).2, .error (.seatNotFound sid)) := by
  unfold lockSeat
  rcases hfind : cachedFindById st sid with ⟨found, st1⟩
  rw [hfind] at h
  dsimp only at h
  subst h
  rfl

/-- `lockSeat` on a present but non-AVAILABLE seat: SeatNotAvailableError
carrying the current status, state as read. -/
theorem lockSeat_guard_fail (st : Store) (sid uid : String) (s : Seat)
    (hfound : (cachedFindById st sid).1 = some s)
    (hna : s.props.status ≠ SeatStatus.AVAILABLE) :
    lockSeat st sid uid =
      ((cachedFindById st sid).2,
       .error (.seatNotAvailable sid (statusToString s.props.status))) := by
  unfold lockSeat
  rcases hfind : cachedFindById st sid with ⟨found, st1⟩
  rw [hfind] at hfound
  dsimp only at hfound
  subst hfound
  dsimp only
  rw [if_neg (by simpa [isAvailable_iff] using hna)]

/-- Inversion for a successful `confirmSale`: the read found a seat
locked by the caller, the result is its sold successor, and the state is
the one left by persisting exactly that successor. -/
theorem confirmSale_ok_inv (st : Store) (sid uid : String) (t : Seat)
    (h : (confirmSale st sid uid).2 = .ok t) :
    ∃ s0, (cachedFindById st sid).1 = some s0 ∧
      s0.props.status = SeatStatus.LOCKED ∧
      s0.props.userId = some uid ∧
      t = soldSuccessor s0 ∧
      ∃ st2 saved,
        cachedSave (cachedFindById st sid).2 (soldSuccessor s0) =
          .ok (st2, saved) ∧
        confirmSale st sid uid = (st2, .ok (soldSuccessor s0)) := by
  revert h
  unfold confirmSale
  rcases hfind : cachedFindById st sid with ⟨found, st1⟩
  cases found with
  | none =>
    intro h
    cases h
  | some seat =>
    dsimp only
    by_cases hlb : seat.isLockedBy uid = true
    · rw [if_pos hlb]
      obtain ⟨hst, hu⟩ := (isLockedBy_iff seat uid).mp hlb
      have hsell : seat.sell = .ok (soldSuccessor seat) :=
        (sell_ok_iff seat (soldSuccessor seat)).mpr ⟨hst, rfl⟩
      rw [hsell]
      dsimp only
      cases hsv : cachedSave st1 (soldSuccessor seat) with
      | error e =>
        dsimp only
        intro h
        cases h
      | ok pr =>
        obtain ⟨st2, saved⟩ := pr
        dsimp only
        intro h
        simp only [Except.ok.injEq] at h
        exact ⟨seat, rfl, hst, hu, h.symm, st2, saved, hsv, by rw [h]⟩
    · rw [if_neg hlb]
      intro h
      cases h

/-- Every failing `confirmSale` leaves the durable rows unchanged. -/
theorem confirmSale_error_db (st : Store) (sid uid : String) (e : BookingError)
    (h : (confirmSale st sid uid).2 = .error e) :
    ((confirmSale st sid uid).1).db = st.db := by
  have hdb : ((cachedFindById st sid).2).db = st.db := cachedFindById_db_eq st sid
  revert h
  unfold confirmSale
  rcases hfind : cachedFindById st sid with ⟨found, st1⟩
  rw [hfind] at hdb
  cases found with
  | none =>
    intro _
    exact hdb
  | some seat =>
    dsimp only
    by_cases hlb : seat.isLockedBy uid = true
    · rw [if_pos hlb]
      obtain ⟨hst, hu⟩ := (isLockedBy_iff seat uid).mp hlb
      have hsell : seat.sell = .ok (soldSuccessor seat) :=
        (sell_ok_iff seat (soldSuccessor seat)).mpr ⟨hst, rfl⟩
      rw [hsell]
      dsimp only
      cases hsv : cachedSave st1 (soldSuccessor seat) with
      | error e2 =>
        dsimp only
        intro _
        exact hdb
      | ok pr =>
        obtain ⟨st2, saved⟩ := pr
        dsimp only
        intro h
        cases h
    · rw [if_neg hlb]
      intro _
      exact hdb

/-- `confirmSale` on a seat the caller has not locked (wrong holder, or
any non-LOCKED status, including SOLD): UnauthorizedLockError. -/
theorem confirmSale_guard_fail (st : Store) (sid uid : String) (s : Seat)
    (hfound : (cachedFindById st sid).1 = some s)
    (hnl : ¬(s.props.status = SeatStatus.LOCKED ∧ s.props.userId = some uid)) :
    confirmSale st sid uid =
      ((cachedFindById st sid).2, .error (.unauthorizedLock uid sid)) := by
  unfold confirmSale
  rcases hfind : cachedFindById st sid with ⟨found, st1⟩
  rw [hfind] at hfound
  dsimp only at hfound
  subst hfound
  dsimp only
  rw [if_neg (by simpa [isLockedBy_iff] using hnl)]

/-- Inversion for a successful `releaseSeat`. -/
theorem releaseSeat_ok_inv (st : Store) (sid uid : String) (t : Seat)
    (h : (releaseSeat st sid uid).2 = .ok t) :
    ∃ s0, (cachedFindById st sid).1 = some s0 ∧
      s0.props.status = SeatStatus.LOCKED ∧
      s0.props.userId = some uid ∧
      t = releasedSuccessor s0 ∧
      ∃ st2 saved,
        cachedSave (cachedFindById st sid).2 (releasedSuccessor s0) =
          .ok (st2, saved) ∧
        releaseSeat st sid uid = (st2, .ok (releasedSuccessor s0)) := by
  revert h
  unfold releaseSeat
  rcases hfind : cachedFindById st sid with ⟨found, st1⟩
  cases found with
  | none =>
    intro h
    cases h
  | some seat =>
    dsimp only
    by_cases hlb : seat.isLockedBy uid = true
    · rw [if_pos hlb]
      obtain ⟨hst, hu⟩ := (isLockedBy_iff seat uid).mp hlb
      have hrel : seat.release = .ok (releasedSuccessor seat) :=
        (release_ok_iff seat (releasedSuccessor seat)).mpr ⟨hst, rfl⟩
      rw [hrel]
      dsimp only
      cases hsv : cachedSave st1 (releasedSuccessor seat) with
      | error e =>
        dsimp only
        intro h
        cases h
      | ok pr =>
        obtain ⟨st2, saved⟩ := pr
        dsimp only
        intro h
        simp only [Except.ok.injEq] at h
        exact ⟨seat, rfl, hst, hu, h.symm, st2, saved, hsv, by rw [h]⟩
    · rw [if_neg hlb]
      intro h
      cases h

/-- Every failing `releaseSeat` leaves the durable rows unchanged. -/
theorem releaseSeat_error_db (st : Store) (sid uid : String) (e : BookingError)
    (h : (releaseSeat st sid uid).2 = .error e) :
    ((releaseSeat st sid uid).1).db = st.db := by
  have hdb : ((cachedFindById st sid).2).db = st.db := cachedFindById_db_eq st sid
  revert h
  unfold releaseSeat
  rcases hfind : cachedFindById st sid with ⟨found, st1⟩
  rw [hfind] at hdb
  cases found with
  | none =>
    intro _
    exact hdb
  | some seat =>
    dsimp only
    by_cases hlb : seat.isLockedBy uid = true
    · rw [if_pos hlb]
      obtain ⟨hst, hu⟩ := (isLockedBy_iff seat uid).mp hlb
      have hrel : seat.release = .ok (releasedSuccessor seat) :=
        (release_ok_iff seat (releasedSuccessor seat)).mpr ⟨hst, rfl⟩
      rw [hrel]
      dsimp only
      cases hsv : cachedSave st1 (releasedSuccessor seat) with
      | error e2 =>
        dsimp only
        intro _
        exact hdb
      | ok pr =>
        obtain ⟨st2, saved⟩ := pr
        dsimp only
        intro h
        cases h
    · rw [if_neg hlb]
      intro _
      exact hdb

/-- `releaseSeat` on a seat the caller has not locked: UnauthorizedLockError. -/
theorem releaseSeat_guard_fail (st : Store) (sid uid : String) (s : Seat)
    (hfound : (cachedFindById st sid).1 = some s)
    (hnl : ¬(s.props.status = SeatStatus.LOCKED ∧ s.props.userId = some uid)) :
    releaseSeat st sid uid =
      ((cachedFindById st sid).2, .error (.unauthorizedLock uid sid)) := by
  unfold releaseSeat
  rcases hfind : cachedFindById st sid with ⟨found, st1⟩
  rw [hfind] at hfound
  dsimp only at hfound
  subst hfound
  dsimp only
  rw [if_neg (by simpa [isLockedBy_iff] using hnl)]

/-- When the read finds an AVAILABLE seat and persisting its locked
successor succeeds, `lockSeat` returns exactly that successor and the
persisted state. -/
theorem lockSeat_save_ok (st : Store) (sid uid : String) (s : Seat)
    (hfound : (cachedFindById st sid).1 = some s)
    (hav : s.props.status = SeatStatus.AVAILABLE)
    (st2 : Store) (saved : Seat)
    (hsv : cachedSave (cachedFindById st sid).2 (lockedSuccessor s uid) =
      .ok (st2, saved)) :
    lockSeat st sid uid = (st2, .ok (lockedSuccessor s uid)) := by
  unfold lockSeat
  rcases hfind : cachedFindById st sid with ⟨found, st1⟩
  rw [hfind] at hfound hsv
  dsimp only at hfound hsv
  subst hfound
  dsimp only
  rw [if_pos ((isAvailable_iff s).mpr hav)]
  rw [(lock_ok_iff s (lockedSuccessor s uid) uid).mpr ⟨hav, rfl⟩]
  dsimp only
  rw [hsv]

/-- C3: `lockSeat(seatId, holderId)`: an absent seat fails with NotFound;
a present but non-AVAILABLE seat fails with NotAvailable carrying the
current status; otherwise the result is a new record with status LOCKED,
holderId set to the requester and version + 1, persisted exactly as such
through the cache-invalidating save path. -/
theorem lockSeat_spec (st : Store) (seatId userId : String) :
    ((cachedFindById st seatId).1 = none →
      lockSeat st seatId userId =
        ((cachedFindById st seatId).2, .error (.seatNotFound seatId))) ∧
    (∀ s, (cachedFindById st seatId).1 = some s →
      s.props.status ≠ SeatStatus.AVAILABLE →
      lockSeat st seatId userId =
        ((cachedFindById st seatId).2,
         .error (.seatNotAvailable seatId (statusToString s.props.status)))) ∧
    (∀ s, (cachedFindById st seatId).1 = some s →
      s.props.status = SeatStatus.AVAILABLE →
      ∀ st2 saved,
        cachedSave (cachedFindById st seatId).2 (lockedSuccessor s userId) =
          .ok (st2, saved) →
        lockSeat st seatId userId = (st2, .ok (lockedSuccessor s userId)) ∧
        (lockedSuccessor s userId).props.status = SeatStatus.LOCKED ∧
        (lockedSuccessor s userId).props.userId = some userId ∧
        (lockedSuccessor s userId).props.version = s.props.version + 1) := by
  refine ⟨lockSeat_none st seatId userId, ?_, ?_⟩
  · intro s hfound hna
    exact lockSeat_guard_fail st seatId userId s hfound hna
  · intro s hfound hav st2 saved hsv
    exact ⟨lockSeat_save_ok st seatId userId s hfound hav st2 saved hsv,
           rfl, rfl, rfl⟩

/-- Witness for C3: locking the available seat s1 as u1 yields exactly
its locked successor (LOCKED, holder u1, version 2) and the persisted
state with both cache keys invalidated. -/
theorem lockSeat_spec_witness :
    lockSeat storeW "s1" "u1" =
      (storeAfterSaveW, .ok (lockedSuccessor availW "u1")) ∧
    (lockedSuccessor availW "u1").props.status = SeatStatus.LOCKED ∧
    (lockedSuccessor availW "u1").props.userId = some "u1" ∧
    (lockedSuccessor availW "u1").props.version = availW.props.version + 1 :=
  (lockSeat_spec storeW "s1" "u1").2.2 availW (by decide) rfl
    storeAfterSaveW lockedW (by decide)

/-- The state after locking s1 in `storeW` through the service. -/
def storeAfterLockW : Store := (lockSeat storeW "s1" "u1").1

/-- The state after u1 then buys s1 (Scenario B's SOLD state). -/
def storeAfterSaleW : Store := (confirmSale storeAfterLockW "s1" "u1").1

/-- Counterexample to C2: after lock and sale by u1, a second
`confirmSale` by u1 fails with UnauthorizedLockError — not with
SeatNotAvailableError("SOLD") as the claim (spec Scenario B) states. -/
theorem second_confirmSale_unauthorized :
    (lockSeat storeW "s1" "u1").2 = .ok lockedW ∧
    (confirmSale storeAfterLockW "s1" "u1").2 = .ok soldW ∧
    (confirmSale storeAfterSaleW "s1" "u1").2 =
      .error (.unauthorizedLock "u1" "s1") ∧
    (confirmSale storeAfterSaleW "s1" "u1").2 ≠
      .error (.seatNotAvailable "s1" "SOLD") := by
  decide

/-- C2 amended: a transition request invalid for the seat's current
status fails and leaves the persisted rows unchanged: `lockSeat` on a
non-AVAILABLE seat fails with NotAvailable carrying the current status,
while `confirmSale` and `releaseSeat` on a seat the caller has not
locked (including any SOLD seat) fail with Unauthorized; in particular a
second sale attempt on a SOLD seat fails with Unauthorized. -/
theorem invalid_transition_rejected (st : Store) (seatId userId : String)
    (s : Seat) (hfound : (cachedFindById st seatId).1 = some s) :
    (s.props.status ≠ SeatStatus.AVAILABLE →
      (lockSeat st seatId userId).2 =
        .error (.seatNotAvailable seatId (statusToString s.props.status)) ∧
      ((lockSeat st seatId userId).1).db = st.db) ∧
    (¬(s.props.status = SeatStatus.LOCKED ∧ s.props.userId = some userId) →
      ((confirmSale st seatId userId).2 =
          .error (.unauthorizedLock userId seatId) ∧
        ((confirmSale st seatId userId).1).db = st.db) ∧
      ((releaseSeat st seatId userId).2 =
          .error (.unauthorizedLock userId seatId) ∧
        ((releaseSeat st seatId userId).1).db = st.db)) := by
  constructor
  · intro hna
    rw [lockSeat_guard_fail st seatId userId s hfound hna]
    exact ⟨rfl, cachedFindById_db_eq st seatId⟩
  · intro hnl
    constructor
    · rw [confirmSale_guard_fail st seatId userId s hfound hnl]
      exact ⟨rfl, cachedFindById_db_eq st seatId⟩
    · rw [releaseSeat_guard_fail st seatId userId s hfound hnl]
      exact ⟨rfl, cachedFindById_db_eq st seatId⟩

/-- Witness for C2 (amended): the second sale attempt on the SOLD seat
fails with Unauthorized and the stored rows are untouched. -/
theorem invalid_transition_rejected_witness :
    ((confirmSale storeSoldW "s1" "u1").2 =
        .error (.unauthorizedLock "u1" "s1") ∧
      ((confirmSale storeSoldW "s1" "u1").1).db = storeSoldW.db) ∧
    ((releaseSeat storeSoldW "s1" "u1").2 =
        .error (.unauthorizedLock "u1" "s1") ∧
      ((releaseSeat storeSoldW "s1" "u1").1).db = storeSoldW.db) :=
  (invalid_transition_rejected storeSoldW "s1" "u1" soldW (by decide)).2
    (by decide)

/-- C4: each successful transition (lock, sell, release) — at the entity
level and as returned by the service operations — increments the version
by exactly 1; every failing service operation, whether rejected by a
guard or by a failed save, leaves the durable rows (and in particular
the stored version) unchanged. -/
theorem version_discipline (s t : Seat) (u : String) (st : Store)
    (sid uid : String) (e : BookingError) :
    (s.lock u = .ok t → t.props.version = s.props.version + 1) ∧
    (s.sell = .ok t → t.props.version = s.props.version + 1) ∧
    (s.release = .ok t → t.props.version = s.props.version + 1) ∧
    ((lockSeat st sid uid).2 = .ok t →
      ∃ s0, (cachedFindById st sid).1 = some s0 ∧
        t.props.version = s0.props.version + 1) ∧
    ((confirmSale st sid uid).2 = .ok t →
      ∃ s0, (cachedFindById st sid).1 = some s0 ∧
        t.props.version = s0.props.version + 1) ∧
    ((releaseSeat st sid uid).2 = .ok t →
      ∃ s0, (cachedFindById st sid).1 = some s0 ∧
        t.props.version = s0.props.version + 1) ∧
    ((lockSeat st sid uid).2 = .error e →
      ((lockSeat st sid uid).1).db = st.db) ∧
    ((confirmSale st sid uid).2 = .error e →
      ((confirmSale st sid uid).1).db = st.db) ∧
    ((releaseSeat st sid uid).2 = .error e →
      ((releaseSeat st sid uid).1).db = st.db) := by
  refine ⟨?_, ?_, ?_, ?_, ?_, ?_, lockSeat_error_db st sid uid e,
    confirmSale_error_db st sid uid e, releaseSeat_error_db st sid uid e⟩
  · intro h
    rw [((lock_ok_iff s t u).mp h).2]
    rfl
  · intro h
    rw [((sell_ok_iff s t).mp h).2]
    rfl
  · intro h
    rw [((release_ok_iff s t).mp h).2]
    rfl
  · intro h
    obtain ⟨s0, hf, _, ht, _⟩ := lockSeat_ok_inv st sid uid t h
    exact ⟨s0, hf, by rw [ht]; rfl⟩
  · intro h
    obtain ⟨s0, hf, _, _, ht, _⟩ := confirmSale_ok_inv st sid uid t h
    exact ⟨s0, hf, by rw [ht]; rfl⟩
  · intro h
    obtain ⟨s0, hf, _, _, ht, _⟩ := releaseSeat_ok_inv st sid uid t h
    exact ⟨s0, hf, by rw [ht]; rfl⟩

/-- Witness for C4 at the concrete lock of s1 by u1 (version 1 → 2). -/
theorem version_discipline_witness :
    lockedW.props.version = availW.props.version + 1 :=
  (version_discipline availW lockedW "u1" storeW "s1" "u1"
    (.seatNotFound "s1")).1 (by decide)

end TicketRush
